import Mathlib

/-!
Shallow embedding of gradient_texture_atlas.py (GradientColorTextureAtlasMaker).

Conventions of the embedding:
* A Python RGB tuple is a triple of integers, type Color below.
* Text lines are lists of characters.
* Python real (float) arithmetic in create_gradient is modelled by exact
  rational arithmetic; int() truncation toward zero is pyint below.
* Python exceptions are modelled by Option / Except values.
-/

namespace Atlas

/-- An RGB color as produced by hex_to_rgb and consumed everywhere else:
an ordered triple of integers. -/
abbrev Color : Type := Int × Int × Int

instance {ε α : Type} [DecidableEq ε] [DecidableEq α] : DecidableEq (Except ε α) :=
  fun a b =>
    match a, b with
    | Except.error e, Except.error f =>
      decidable_of_iff (e = f) (by constructor <;> (intro h; cases h; rfl))
    | Except.ok x, Except.ok y =>
      decidable_of_iff (x = y) (by constructor <;> (intro h; cases h; rfl))
    | Except.error _, Except.ok _ => isFalse (fun h => Except.noConfusion h)
    | Except.ok _, Except.error _ => isFalse (fun h => Except.noConfusion h)

/-- The whitespace characters stripped by Python str.strip() and ignored by
int(s, 16), restricted to ASCII. -/
def isPySpace (c : Char) : Bool :=
  c = ' ' || c = '\t' || c = '\n' || c = '\r' || c = '\x0b' || c = '\x0c'

/-- Python str.strip(): drop leading and trailing whitespace. -/
def pyStrip (s : List Char) : List Char :=
  ((s.dropWhile isPySpace).reverse.dropWhile isPySpace).reverse

/-- Value of one hexadecimal digit, none for a non-digit. -/
def hexVal (c : Char) : Option Nat :=
  if '0' ≤ c ∧ c ≤ '9' then some (c.toNat - '0'.toNat)
  else if 'a' ≤ c ∧ c ≤ 'f' then some (c.toNat - 'a'.toNat + 10)
  else if 'A' ≤ c ∧ c ≤ 'F' then some (c.toNat - 'A'.toNat + 10)
  else none

/-- Digits of a base-16 literal after the first digit: hexadecimal digits,
with single underscores allowed between digits (CPython int literal rule). -/
def parseHexRest (acc : Nat) : List Char → Option Nat
  | [] => some acc
  | '_' :: c :: rest =>
    match hexVal c with
    | some v => parseHexRest (acc * 16 + v) rest
    | none => none
  | ['_'] => none
  | c :: rest =>
    match hexVal c with
    | some v => parseHexRest (acc * 16 + v) rest
    | none => none

/-- A nonempty run of hexadecimal digits (underscores between digits allowed),
as read by CPython int(s, 16) after sign and prefix handling. -/
def parseHexNum : List Char → Option Nat
  | [] => none
  | c :: rest =>
    match hexVal c with
    | some v => parseHexRest v rest
    | none => none

/-- Digit part of int(s, 16) after an optional sign: an optional 0x / 0X
prefix (an underscore may follow the prefix), then hexadecimal digits. -/
def parseHexBody : List Char → Option Nat
  | '0' :: 'x' :: rest =>
    (match rest with
     | '_' :: rest2 => parseHexNum rest2
     | _ => parseHexNum rest)
  | '0' :: 'X' :: rest =>
    (match rest with
     | '_' :: rest2 => parseHexNum rest2
     | _ => parseHexNum rest)
  | s => parseHexNum s

/-- CPython int(s, 16): surrounding whitespace is ignored, then an optional
sign, an optional 0x prefix and a nonempty digit run. none models the
ValueError raised on any other input. -/
def pyIntHex (s : List Char) : Option Int :=
  match pyStrip s with
  | '+' :: rest => (parseHexBody rest).map (fun n => (n : Int))
  | '-' :: rest => (parseHexBody rest).map (fun n => -(n : Int))
  | t => (parseHexBody t).map (fun n => (n : Int))

/-- hex_to_rgb: tuple(int(hex_color[i:i+2], 16) for i in (0, 2, 4)).
none models the exception escaping from int on a malformed slice. -/
def hex_to_rgb (s : List Char) : Option Color := do
  let r ← pyIntHex (s.take 2)
  let g ← pyIntHex ((s.drop 2).take 2)
  let b ← pyIntHex ((s.drop 4).take 2)
  pure (r, g, b)

/-- The list comprehension over the open file: stripped lines, blank (falsy)
lines dropped. -/
def hexLines (lines : List (List Char)) : List (List Char) :=
  (lines.map pyStrip).filter (fun s => ¬ s.isEmpty)

/-- Lines handed to hex_to_rgb: the stripped nonblank lines of exactly 6
characters. -/
def acceptedLines (lines : List (List Char)) : List (List Char) :=
  (hexLines lines).filter (fun s => s.length = 6)

/-- rgb_colors: every accepted line parsed by hex_to_rgb; none models an
exception escaping from the comprehension. -/
def rgbColors (lines : List (List Char)) : Option (List Color) :=
  (acceptedLines lines).mapM hex_to_rgb

/-- Result of process_hex_file: an uncaught exception, a skip with a
diagnostic (no output image), or an output image; the image itself is
abstracted to the palette it is composited from, since the claims about
process_hex_file only concern its control flow. -/
def process_hex_file (lines : List (List Char)) : Except Unit (Option (List Color)) :=
  match rgbColors lines with
  | none => Except.error ()
  | some [] => Except.ok none
  | some rgb => Except.ok (some rgb)

/-- The loop of main over the found files: per-file results in order, paired
with a flag recording whether an uncaught exception aborted the run (files
after the aborting one are not processed and give no result). -/
def runFiles : List (List (List Char)) → List (Option (List Color)) × Bool
  | [] => ([], false)
  | f :: rest =>
    match process_hex_file f with
    | Except.error _ => ([], true)
    | Except.ok r =>
      let p := runFiles rest
      (r :: p.1, p.2)

/-! Layout planner: the constants and derived quantities of
process_hex_file, lines 94-134 of the source. -/

/-- MAIN gradient width. -/
def main_gradient_width : Nat := 100

/-- Reserve top 600px for squares. -/
def gradient_start_y : Nat := 600

def available_gradient_height : Nat := 2048 - gradient_start_y

/-- Two rows of bottom gradients. -/
def gradient_height : Nat := available_gradient_height / 2

def total_content_width : Nat := 2048 - main_gradient_width

def num_gradients : Nat := 11

def gradient_width : Nat := total_content_width / (num_gradients + 1)

/-- Width the gradients fill exactly. -/
def total_gradient_width : Nat := gradient_width * (num_gradients + 1)

def target_square_size : Nat := 100

def max_cols : Nat := total_gradient_width / target_square_size

/-- grid_cols = min(max_cols, num_colors), then collapsed to num_colors
when it already covers all colors. -/
def grid_cols (num_colors : Nat) : Nat :=
  if min max_cols num_colors ≥ num_colors then num_colors else min max_cols num_colors

/-- grid_rows: 1 when one row covers all colors, else ceil(num_colors /
grid_cols); the source computes the ceiling of an exact float quotient,
modelled by Nat ceiling division. -/
def grid_rows (num_colors : Nat) : Nat :=
  if min max_cols num_colors ≥ num_colors then 1
  else (num_colors + grid_cols num_colors - 1) / grid_cols num_colors

def square_width (num_colors : Nat) : Nat := total_gradient_width / grid_cols num_colors

def remaining_width_per_row (num_colors : Nat) : Nat := total_gradient_width % grid_cols num_colors

def square_height (num_colors : Nat) : Nat :=
  min (square_width num_colors) (gradient_start_y / grid_rows num_colors)

/-- x offset of the square in column col (lines 142-153): x = col *
square_width, plus col when col is among the remainder columns, else plus
the whole remainder. -/
def squareX (num_colors col : Nat) : Nat :=
  col * square_width num_colors +
    (if col < remaining_width_per_row num_colors then col else remaining_width_per_row num_colors)

/-- Width of the square in column col (lines 146-148): one extra pixel for
the first remainder columns. -/
def squareW (num_colors col : Nat) : Nat :=
  square_width num_colors + (if col < remaining_width_per_row num_colors then 1 else 0)

/-- The enlarged main gradient width of line 160. -/
def actual_main_gradient_width : Nat := 2048 - total_gradient_width

/-! Neighbor selector. -/

/-- Square of the Euclidean RGB distance of rgb_distance. The source
compares math.sqrt values; on the integer squares occurring here (at most
3 * 255 ^ 2) the correctly rounded double sqrt is strictly monotone and
injective, so every comparison and every tie of the float distances agrees
with the comparison of these exact squares. -/
def rgb_distance_sq (c1 c2 : Color) : Int :=
  (c1.1 - c2.1) ^ 2 + (c1.2.1 - c2.2.1) ^ 2 + (c1.2.2 - c2.2.2) ^ 2

/-- Python comparison of the pairs (distance, color): lexicographic through
the distance and then the three color channels. -/
def pyLe (a b : Int × Color) : Bool :=
  if a.1 ≠ b.1 then decide (a.1 < b.1)
  else if a.2.1 ≠ b.2.1 then decide (a.2.1 < b.2.1)
  else if a.2.2.1 ≠ b.2.2.1 then decide (a.2.2.1 < b.2.2.1)
  else decide (a.2.2.2 ≤ b.2.2.2)

/-- The distances list of find_neighbors before sorting: (distance, color)
for every palette color not value-equal to the target, in palette order. -/
def distancesList (target : Color) (colors : List Color) : List (Int × Color) :=
  (colors.filter (fun c => c ≠ target)).map (fun c => (rgb_distance_sq target c, c))

/-- distances.sort(): Python list.sort is a stable sort by the tuple
comparison pyLe. -/
def sortedDistances (target : Color) (colors : List Color) : List (Int × Color) :=
  (distancesList target colors).mergeSort pyLe

/-- find_neighbors: the loop over range(start_index, min(start_index +
max_neighbors, len(distances))) collects sorted entries start_index, ...,
i.e. drop min_distance then take max_neighbors. -/
def find_neighbors (target : Color) (colors : List Color)
    (max_neighbors min_distance : Nat) : List Color :=
  (((sortedDistances target colors).drop min_distance).take max_neighbors).map Prod.snd

/-! Gradient synthesizer. Python float arithmetic is modelled by exact
rationals; int() is truncation toward zero. -/

/-- Python int() on a real value: truncation toward zero. -/
def pyint (q : ℚ) : Int :=
  if 0 ≤ q then Int.floor q else -(Int.floor (-q))

/-- Position of the pixel (x, y) in the gradient, lines 51-54: 0.0 to 1.0
along the gradient axis, 0 when the axis has length 1. -/
def gradPos (width height : Nat) (vertical : Bool) (x y : Nat) : ℚ :=
  if vertical then (if height > 1 then (y : ℚ) / ((height : ℚ) - 1) else 0)
  else (if width > 1 then (x : ℚ) / ((width : ℚ) - 1) else 0)

/-- One interpolated channel, lines 68-70: color1 channel plus the channel
difference times local_pos, truncated by int(). -/
def interpChannel (c1 c2 : Int) (local_pos : ℚ) : Int :=
  pyint ((c1 : ℚ) + ((c2 : ℚ) - (c1 : ℚ)) * local_pos)

/-- The multi-color pixel computation of lines 56-72. Defined for 2 or more
colors (with fewer, the Python code raises or indexes from the end; every
theorem below assumes at least 2 colors, under which segment and
segment + 1 are valid nonnegative indices). -/
def gradPixel (colors : List Color) (pos : ℚ) : Color :=
  let n : Int := colors.length
  let segment_size : ℚ := 1 / ((colors.length : ℚ) - 1)
  let segment : Int := min (pyint (pos / segment_size)) (n - 2)
  let local_pos : ℚ := (pos - (segment : ℚ) * segment_size) / segment_size
  let color1 := colors.getD segment.toNat (0, 0, 0)
  let color2 := colors.getD (segment + 1).toNat (0, 0, 0)
  (interpChannel color1.1 color2.1 local_pos,
   interpChannel color1.2.1 color2.2.1 local_pos,
   interpChannel color1.2.2 color2.2.2 local_pos)

/-- create_gradient: a single color gives width * height copies of it;
otherwise the y-outer x-inner loops append one interpolated pixel per
(x, y), so the buffer lists row 0 first, then row 1, and so on. -/
def create_gradient (colors : List Color) (width height : Nat)
    (vertical : Bool) : List Color :=
  if colors.length = 1 then
    List.replicate (width * height) (colors.getD 0 (0, 0, 0))
  else
    (List.range height).flatMap (fun y =>
      (List.range width).map (fun x =>
        gradPixel colors (gradPos width height vertical x y)))

/-- The pixel formula exactly as the specification states it, for comparison
with the embedded code: pos along the axis (0 on an axis of length 1),
segment_size 1 / (len - 1), segment the floor of pos / segment_size clamped
to at most len - 2, local_pos the renormalized offset in the segment, and
each channel linearly interpolated then truncated toward zero. -/
def specPixelC2 (colors : List Color) (width height : Nat) (vertical : Bool)
    (x y : Nat) : Color :=
  let pos : ℚ := if vertical then (if height > 1 then (y : ℚ) / ((height : ℚ) - 1) else 0)
    else (if width > 1 then (x : ℚ) / ((width : ℚ) - 1) else 0)
  let segment_size : ℚ := 1 / ((colors.length : ℚ) - 1)
  let segment : Int := min (Int.floor (pos / segment_size)) ((colors.length : Int) - 2)
  let local_pos : ℚ := (pos - (segment : ℚ) * segment_size) / segment_size
  let c1 := colors.getD segment.toNat (0, 0, 0)
  let c2 := colors.getD (segment + 1).toNat (0, 0, 0)
  (pyint ((c1.1 : ℚ) + ((c2.1 : ℚ) - (c1.1 : ℚ)) * local_pos),
   pyint ((c1.2.1 : ℚ) + ((c2.2.1 : ℚ) - (c1.2.1 : ℚ)) * local_pos),
   pyint ((c1.2.2 : ℚ) + ((c2.2.2 : ℚ) - (c1.2.2 : ℚ)) * local_pos))

/-! Theorems. -/

/-- Claim C7: the palette loader accepts an input line if and only if,
after trimming whitespace, it is exactly 6 characters long (other lines,
blank lines included, are silently dropped), and each accepted line is
parsed by hex_to_rgb as three 2-digit hexadecimal bytes, with
hex_to_rgb of ff0000 equal to (255,0,0) and of 00ff00 equal to (0,255,0). -/
theorem C7_loader_accepts_iff_six_chars :
    (∀ lines : List (List Char),
      acceptedLines lines = (lines.map pyStrip).filter (fun s => s.length = 6)) ∧
    (∀ lines : List (List Char), rgbColors lines = (acceptedLines lines).mapM hex_to_rgb) ∧
    hex_to_rgb ['f', 'f', '0', '0', '0', '0'] = some ((255 : Int), 0, 0) ∧
    hex_to_rgb ['0', '0', 'f', 'f', '0', '0'] = some ((0 : Int), 255, 0) := by
  refine ⟨fun lines => ?_, fun lines => rfl, by decide, by decide⟩
  unfold acceptedLines hexLines
  rw [List.filter_filter]
  congr 1
  funext s
  cases s with
  | nil => rfl
  | cons c t => simp [List.isEmpty]

/-- Claim C9: a line of exactly 6 non-hexadecimal characters, such as
zzzzzz, makes hex_to_rgb raise; process_hex_file propagates the exception
(no output for that file) and main, having no handler, stops, so a
subsequent file that alone would produce an output is never processed. -/
theorem C9_invalid_hex_aborts_run :
    pyStrip ['z', 'z', 'z', 'z', 'z', 'z'] = ['z', 'z', 'z', 'z', 'z', 'z'] ∧
    hex_to_rgb ['z', 'z', 'z', 'z', 'z', 'z'] = none ∧
    process_hex_file [['z', 'z', 'z', 'z', 'z', 'z']] = Except.error () ∧
    runFiles [[['z', 'z', 'z', 'z', 'z', 'z']], [['f', 'f', '0', '0', '0', '0']]] = ([], true) ∧
    runFiles [[['f', 'f', '0', '0', '0', '0']]] = ([some [((255 : Int), 0, 0)]], false) := by
  decide

/-- Claim C8: a file with zero valid colors is skipped (process_hex_file
returns the diagnostic skip, producing no output image) and the loop of
main goes on to process every subsequent file exactly as it would have. -/
theorem C8_zero_colors_skips_file (f : List (List Char)) (rest : List (List (List Char)))
    (h : rgbColors f = some []) :
    process_hex_file f = Except.ok none ∧
    runFiles (f :: rest) = (none :: (runFiles rest).1, (runFiles rest).2) := by
  have hp : process_hex_file f = Except.ok none := by
    unfold process_hex_file
    rw [h]
  exact ⟨hp, by rw [runFiles, hp]⟩

/-- Witness for C8 at a concrete file with no 6-character line, followed by
a concrete well-formed file. -/
theorem C8_zero_colors_skips_file_witness :
    rgbColors [['h', 'e', 'l', 'l', 'o']] = some [] ∧
    process_hex_file [['h', 'e', 'l', 'l', 'o']] = Except.ok none ∧
    runFiles [[['h', 'e', 'l', 'l', 'o']], [['f', 'f', '0', '0', '0', '0']]] =
      (none :: (runFiles [[['f', 'f', '0', '0', '0', '0']]]).1,
        (runFiles [[['f', 'f', '0', '0', '0', '0']]]).2) :=
  ⟨by decide,
    (C8_zero_colors_skips_file [['h', 'e', 'l', 'l', 'o']] [[['f', 'f', '0', '0', '0', '0']]]
      (by decide)).1,
    (C8_zero_colors_skips_file [['h', 'e', 'l', 'l', 'o']] [[['f', 'f', '0', '0', '0', '0']]]
      (by decide)).2⟩

/-- Counterexample to claim C3: the fixed main gradient constant 100 plus
total_gradient_width is 2044, not the canvas width 2048 (the layout does
not depend on the palette, so this refutes the claim for every palette). -/
theorem C3_fixed_constant_counterexample :
    main_gradient_width + total_gradient_width = 2044 ∧
    ¬ main_gradient_width + total_gradient_width = 2048 := by
  decide

/-- Claim C3 amended: it is the enlarged main gradient actually drawn,
actual_main_gradient_width = 2048 - total_gradient_width = 104, that
together with total_gradient_width fills the canvas width exactly. -/
theorem C3_actual_main_width_fills_canvas :
    actual_main_gradient_width + total_gradient_width = 2048 ∧
    actual_main_gradient_width = 104 := by
  decide

/-- Sum of the remainder indicator over one row of columns. -/
lemma sum_ite_lt_one (g r : Nat) (h : r ≤ g) :
    (Finset.range g).sum (fun col => if col < r then 1 else 0) = r := by
  induction g with
  | zero => simp; omega
  | succ g ih =>
    rw [Finset.sum_range_succ]
    by_cases hr : r ≤ g
    · rw [ih hr, if_neg (by omega)]
      omega
    · have hr' : r = g + 1 := by omega
      subst hr'
      rw [if_pos (by omega)]
      have hall : ∀ col ∈ Finset.range g, (if col < g + 1 then (1 : ℕ) else 0) = 1 := by
        intro col hc
        exact if_pos (by have := Finset.mem_range.mp hc; omega)
      rw [Finset.sum_congr rfl hall]
      simp

/-- grid_cols is at least 1 on a nonempty palette. -/
lemma one_le_grid_cols (n : Nat) (hn : 1 ≤ n) : 1 ≤ grid_cols n := by
  unfold grid_cols
  split
  · exact hn
  · have hm : max_cols = 19 := by decide
    rw [hm]
    omega

/-- Claim C1: in every computed layout the columns of a row tile exactly:
the first total_gradient_width mod grid_cols columns are one pixel wider
than square_width = total_gradient_width div grid_cols, the x offsets are
contiguous starting at 0, and a full row of widths sums to
total_gradient_width exactly. -/
theorem C1_row_tiling (n : Nat) (hn : 1 ≤ n) :
    (∀ col, col < grid_cols n →
      squareW n col = if col < total_gradient_width % grid_cols n
        then total_gradient_width / grid_cols n + 1
        else total_gradient_width / grid_cols n) ∧
    squareX n 0 = 0 ∧
    (∀ col, col + 1 < grid_cols n →
      squareX n (col + 1) = squareX n col + squareW n col) ∧
    (Finset.range (grid_cols n)).sum (fun col => squareW n col) = total_gradient_width := by
  have hg : 1 ≤ grid_cols n := one_le_grid_cols n hn
  have hr : total_gradient_width % grid_cols n < grid_cols n :=
    Nat.mod_lt _ hg
  refine ⟨?_, ?_, ?_, ?_⟩
  · intro col _
    unfold squareW remaining_width_per_row square_width
    split_ifs <;> omega
  · unfold squareX remaining_width_per_row
    split_ifs <;> omega
  · intro col _
    unfold squareX squareW remaining_width_per_row
    rw [Nat.succ_mul]
    split_ifs <;> omega
  · have hr2 : remaining_width_per_row n < grid_cols n := hr
    unfold squareW
    rw [Finset.sum_add_distrib, sum_ite_lt_one _ _ (le_of_lt hr2), Finset.sum_const,
      Finset.card_range, smul_eq_mul]
    unfold square_width remaining_width_per_row
    exact Nat.div_add_mod total_gradient_width (grid_cols n)

/-- Witness for C1 at the 5-color palette. -/
theorem C1_row_tiling_witness :
    1 ≤ 5 ∧
    (Finset.range (grid_cols 5)).sum (fun col => squareW 5 col) = total_gradient_width ∧
    squareX 5 0 = 0 :=
  ⟨by decide, (C1_row_tiling 5 (by decide)).2.2.2, (C1_row_tiling 5 (by decide)).2.1⟩

/-- Unfolding of the Python tuple comparison to a linear-arithmetic
proposition. -/
lemma pyLe_iff (a b : Int × Color) :
    pyLe a b = true ↔
      (a.1 < b.1 ∨ (a.1 = b.1 ∧ (a.2.1 < b.2.1 ∨ (a.2.1 = b.2.1 ∧
        (a.2.2.1 < b.2.2.1 ∨ (a.2.2.1 = b.2.2.1 ∧ a.2.2.2 ≤ b.2.2.2)))))) := by
  unfold pyLe
  split_ifs <;> simp only [decide_eq_true_eq] <;> constructor <;> (intro h; try omega)

lemma pyLe_trans (a b c : Int × Color) (hab : pyLe a b = true) (hbc : pyLe b c = true) :
    pyLe a c = true := by
  rw [pyLe_iff] at hab hbc ⊢
  omega

lemma pyLe_total (a b : Int × Color) : (pyLe a b || pyLe b a) = true := by
  rw [Bool.or_eq_true, pyLe_iff, pyLe_iff]
  omega

unseal List.merge List.mergeSort in
/-- Counterexample to claim C4: for target (1,0,0) and palette
[(2,0,0), (0,0,0)], the two candidates are at the same distance and the
distances list is built in palette order, yet the sorted candidate order is
(0,0,0) before (2,0,0): Python sorts the (distance, color) pairs, so a
distance tie is broken by comparing the color tuples, not kept in palette
order. find_neighbors with max_neighbors 2 and min_distance 0 exposes the
whole sorted candidate list. -/
theorem C4_palette_order_counterexample :
    rgb_distance_sq ((1 : Int), 0, 0) ((2 : Int), 0, 0) =
      rgb_distance_sq ((1 : Int), 0, 0) ((0 : Int), 0, 0) ∧
    distancesList ((1 : Int), 0, 0) [((2 : Int), 0, 0), ((0 : Int), 0, 0)] =
      [(1, ((2 : Int), 0, 0)), (1, ((0 : Int), 0, 0))] ∧
    find_neighbors ((1 : Int), 0, 0) [((2 : Int), 0, 0), ((0 : Int), 0, 0)] 2 0 =
      [((0 : Int), 0, 0), ((2 : Int), 0, 0)] ∧
    ¬ find_neighbors ((1 : Int), 0, 0) [((2 : Int), 0, 0), ((0 : Int), 0, 0)] 2 0 =
      [((2 : Int), 0, 0), ((0 : Int), 0, 0)] := by
  decide

/-- Claim C4 amended: the candidate list is a permutation of the built
distances list sorted ascending by the lexicographic comparison of the
(distance, color) pairs, so candidates at equal distance are ordered by
comparing the color triples themselves, not by palette order. -/
theorem C4_sorted_by_distance_then_color (target : Color) (colors : List Color) :
    (sortedDistances target colors).Perm (distancesList target colors) ∧
    List.Pairwise (fun a b => pyLe a b = true) (sortedDistances target colors) :=
  ⟨List.mergeSort_perm _ _, List.sorted_mergeSort pyLe_trans pyLe_total _⟩

/-- Claim C5: find_neighbors never returns the target, returns at most
max_neighbors colors, and returns nothing when fewer than min_distance
candidates exist. -/
theorem C5_find_neighbors_basic (target : Color) (colors : List Color)
    (max_neighbors min_distance : Nat) :
    target ∉ find_neighbors target colors max_neighbors min_distance ∧
    (find_neighbors target colors max_neighbors min_distance).length ≤ max_neighbors ∧
    ((colors.filter (fun c => c ≠ target)).length < min_distance →
      find_neighbors target colors max_neighbors min_distance = []) := by
  refine ⟨?_, ?_, ?_⟩
  · intro hmem
    unfold find_neighbors at hmem
    rw [List.mem_map] at hmem
    obtain ⟨p, hp, hps⟩ := hmem
    have hp2 : p ∈ sortedDistances target colors :=
      List.drop_subset _ _ (List.take_subset _ _ hp)
    have hp3 : p ∈ distancesList target colors :=
      (List.mergeSort_perm (distancesList target colors) pyLe).subset hp2
    unfold distancesList at hp3
    rw [List.mem_map] at hp3
    obtain ⟨c, hc, hcp⟩ := hp3
    have hne := List.of_mem_filter hc
    simp only [decide_eq_true_eq] at hne
    apply hne
    rw [← hps, ← hcp]
  · unfold find_neighbors
    rw [List.length_map]
    exact le_trans (List.length_take_le _ _) (le_refl _)
  · intro h
    unfold find_neighbors
    have hlen : (sortedDistances target colors).length =
        (colors.filter (fun c => c ≠ target)).length := by
      unfold sortedDistances distancesList
      rw [List.length_mergeSort, List.length_map]
    have hdrop : (sortedDistances target colors).drop min_distance = [] :=
      List.drop_eq_nil_of_le (by omega)
    rw [hdrop]
    simp

/-- Witness for C5: a palette with a single candidate and min_distance 2,
where find_neighbors returns the empty list. -/
theorem C5_find_neighbors_basic_witness :
    find_neighbors ((0 : Int), 0, 0) [((0 : Int), 0, 0), ((1 : Int), 1, 1)] 3 2 = [] :=
  (C5_find_neighbors_basic ((0 : Int), 0, 0) [((0 : Int), 0, 0), ((1 : Int), 1, 1)] 3 2).2.2
    (by decide)

/-- Claim C6: a single-color list gives a buffer of exactly width * height
pixels, every one equal to that color. -/
theorem C6_single_color (c : Color) (width height : Nat) (v : Bool)
    (hw : 1 ≤ width) (hh : 1 ≤ height) :
    (create_gradient [c] width height v).length = width * height ∧
    ∀ p ∈ create_gradient [c] width height v, p = c := by
  have h1 : create_gradient [c] width height v = List.replicate (width * height) c := by
    unfold create_gradient
    simp
  rw [h1]
  exact ⟨List.length_replicate _ _, fun p hp => List.eq_of_mem_replicate hp⟩

/-- Witness for C6 at a concrete color and a 2 by 3 buffer. -/
theorem C6_single_color_witness :
    1 ≤ 2 ∧ 1 ≤ 3 ∧
    (create_gradient [((7 : Int), 8, 9)] 2 3 true).length = 2 * 3 ∧
    (create_gradient [((7 : Int), 8, 9)] 2 3 true).getD 0 (0, 0, 0) = ((7 : Int), 8, 9) :=
  ⟨by decide, by decide, (C6_single_color ((7 : Int), 8, 9) 2 3 true (by decide) (by decide)).1,
    (C6_single_color ((7 : Int), 8, 9) 2 3 true (by decide) (by decide)).2 _ (by decide)⟩

/-- Buffer length of the multi-color loop: height blocks of width pixels. -/
lemma create_gradient_length (colors : List Color) (w h : Nat) (v : Bool) :
    (create_gradient colors w h v).length = w * h := by
  unfold create_gradient
  split
  · simp
  · rw [List.length_flatMap]
    have hmap : List.map
        (List.length ∘ fun y => (List.range w).map
          (fun x => gradPixel colors (gradPos w h v x y))) (List.range h) =
        List.replicate h w := by
      have hfn : (List.length ∘ fun y => (List.range w).map
          (fun x => gradPixel colors (gradPos w h v x y))) = Function.const Nat w := by
        funext y
        simp [Function.comp]
      rw [hfn, List.map_const, List.length_range]
    rw [hmap, List.sum_replicate, smul_eq_mul, Nat.mul_comm]

/-- Index y * w + x of the flattened y-outer x-inner double loop is the
(x, y) entry: the buffer is row-major. -/
lemma grid_getD {α : Type} (d : α) (g : Nat → Nat → α) (w : Nat) (ys : List Nat)
    (i x : Nat) (hx : x < w) (hi : i < ys.length) :
    (ys.flatMap (fun y => (List.range w).map (fun t => g t y))).getD (i * w + x) d =
      g x (ys.getD i 0) := by
  induction ys generalizing i with
  | nil => simp at hi
  | cons y ys ih =>
    rw [List.flatMap_cons]
    cases i with
    | zero =>
      simp only [Nat.zero_mul, Nat.zero_add]
      rw [List.getD_append _ _ _ x (by simpa using hx)]
      rw [List.getD_eq_getElem _ _ (by simpa using hx), List.getElem_map, List.getElem_range]
      rfl
    | succ i =>
      have hl : ((List.range w).map (fun t => g t y)).length = w := by simp
      rw [List.getD_append_right _ _ _ _ (by rw [hl, Nat.succ_mul]; omega)]
      rw [hl]
      have he : (i + 1) * w + x - w = i * w + x := by rw [Nat.succ_mul]; omega
      rw [he]
      exact ih i (by simpa using hi)

lemma pyint_of_nonneg (q : ℚ) (h : 0 ≤ q) : pyint q = Int.floor q := by
  unfold pyint
  rw [if_pos h]

lemma gradPos_nonneg (w h : Nat) (v : Bool) (x y : Nat) : 0 ≤ gradPos w h v x y := by
  unfold gradPos
  split_ifs with h1 h2 h3
  · apply div_nonneg (Nat.cast_nonneg y)
    have : (1 : ℚ) < (h : ℚ) := by exact_mod_cast h2
    linarith
  · exact le_refl 0
  · apply div_nonneg (Nat.cast_nonneg x)
    have : (1 : ℚ) < (w : ℚ) := by exact_mod_cast h3
    linarith
  · exact le_refl 0

lemma gradPos_le_one (w h : Nat) (v : Bool) (x y : Nat) (hx : x < w) (hy : y < h) :
    gradPos w h v x y ≤ 1 := by
  unfold gradPos
  split_ifs with h1 h2 h3
  · rw [div_le_one (by
      have : (1 : ℚ) < (h : ℚ) := by exact_mod_cast h2
      linarith)]
    rw [le_sub_iff_add_le]
    exact_mod_cast hy
  · exact zero_le_one
  · rw [div_le_one (by
      have : (1 : ℚ) < (w : ℚ) := by exact_mod_cast h3
      linarith)]
    rw [le_sub_iff_add_le]
    exact_mod_cast hx
  · exact zero_le_one

/-- With at least two colors the code's truncation of the nonnegative
segment quotient agrees with the floor of the claim, so the computed pixel
is exactly the claimed formula. -/
lemma gradPixel_eq_spec (colors : List Color) (w h : Nat) (v : Bool) (x y : Nat)
    (hc : 2 ≤ colors.length) :
    gradPixel colors (gradPos w h v x y) = specPixelC2 colors w h v x y := by
  have hlen : (1 : ℚ) ≤ (colors.length : ℚ) - 1 := by
    have : (2 : ℚ) ≤ (colors.length : ℚ) := by exact_mod_cast hc
    linarith
  have hss : 0 < 1 / ((colors.length : ℚ) - 1) := div_pos one_pos (by linarith)
  have hq : 0 ≤ gradPos w h v x y / (1 / ((colors.length : ℚ) - 1)) :=
    div_nonneg (gradPos_nonneg w h v x y) hss.le
  simp only [gradPixel, interpChannel]
  rw [pyint_of_nonneg _ hq]
  simp only [specPixelC2, gradPos]

/-- Claim C2: for 2 or more colors the buffer has exactly width * height
pixels and is row-major, the pixel of column x and row y sitting at index
y * width + x and equal to the claimed position / segment / truncated
interpolation formula specPixelC2. -/
theorem C2_row_major_pixel_formula (colors : List Color) (w h : Nat) (v : Bool)
    (hc : 2 ≤ colors.length) (hw : 1 ≤ w) (hh : 1 ≤ h) :
    (create_gradient colors w h v).length = w * h ∧
    ∀ x y, x < w → y < h →
      (create_gradient colors w h v).getD (y * w + x) (0, 0, 0) =
        specPixelC2 colors w h v x y := by
  constructor
  · exact create_gradient_length colors w h v
  · intro x y hx hy
    have hn1 : ¬ colors.length = 1 := by omega
    unfold create_gradient
    rw [if_neg hn1]
    have hidx := grid_getD ((0, 0, 0) : Color)
      (fun t u => gradPixel colors (gradPos w h v t u)) w (List.range h) y x hx
      (by simpa using hy)
    have hyy : (List.range h).getD y 0 = y := by
      rw [List.getD_eq_getElem _ _ (by simpa using hy), List.getElem_range]
    rw [hyy] at hidx
    exact hidx.trans (gradPixel_eq_spec colors w h v x y hc)

/-- Witness for C2 on the two-color palette black to red, 3 wide and 1
high, horizontal, at pixel (1, 0). -/
theorem C2_row_major_pixel_formula_witness :
    2 ≤ ([((0 : Int), 0, 0), ((255 : Int), 0, 0)] : List Color).length ∧ 1 ≤ 3 ∧ 1 ≤ 1 ∧
    (create_gradient [((0 : Int), 0, 0), ((255 : Int), 0, 0)] 3 1 false).getD
      (0 * 3 + 1) (0, 0, 0) =
      specPixelC2 [((0 : Int), 0, 0), ((255 : Int), 0, 0)] 3 1 false 1 0 :=
  ⟨by decide, by decide, by decide,
    (C2_row_major_pixel_formula [((0 : Int), 0, 0), ((255 : Int), 0, 0)] 3 1 false
      (by decide) (by decide) (by decide)).2 1 0 (by decide) (by decide)⟩

/-- A truncated linear interpolation between two channels in [0, 255] with
parameter in [0, 1] stays in [0, 255]. -/
lemma interpChannel_bounds (c1 c2 : Int) (t : ℚ)
    (h10 : 0 ≤ c1) (h11 : c1 ≤ 255) (h20 : 0 ≤ c2) (h21 : c2 ≤ 255)
    (ht0 : 0 ≤ t) (ht1 : t ≤ 1) :
    0 ≤ interpChannel c1 c2 t ∧ interpChannel c1 c2 t ≤ 255 := by
  have hc10 : (0 : ℚ) ≤ (c1 : ℚ) := by exact_mod_cast h10
  have hc11 : (c1 : ℚ) ≤ 255 := by exact_mod_cast h11
  have hc20 : (0 : ℚ) ≤ (c2 : ℚ) := by exact_mod_cast h20
  have hc21 : (c2 : ℚ) ≤ 255 := by exact_mod_cast h21
  have hv0 : (0 : ℚ) ≤ (c1 : ℚ) + ((c2 : ℚ) - (c1 : ℚ)) * t := by nlinarith
  have hv1 : (c1 : ℚ) + ((c2 : ℚ) - (c1 : ℚ)) * t ≤ 255 := by nlinarith
  unfold interpChannel
  rw [pyint_of_nonneg _ hv0]
  constructor
  · exact Int.le_floor.mpr (by exact_mod_cast hv0)
  · have hfl := Int.floor_le ((c1 : ℚ) + ((c2 : ℚ) - (c1 : ℚ)) * t)
    exact_mod_cast le_trans hfl hv1

/-- All three channels of a multi-color pixel stay in [0, 255] when the
palette channels do and the position lies in [0, 1]. -/
lemma gradPixel_bounds (colors : List Color) (pos : ℚ) (hc : 2 ≤ colors.length)
    (hb : ∀ c ∈ colors, 0 ≤ c.1 ∧ c.1 ≤ 255 ∧ 0 ≤ c.2.1 ∧ c.2.1 ≤ 255 ∧
      0 ≤ c.2.2 ∧ c.2.2 ≤ 255)
    (hp0 : 0 ≤ pos) (hp1 : pos ≤ 1) :
    0 ≤ (gradPixel colors pos).1 ∧ (gradPixel colors pos).1 ≤ 255 ∧
    0 ≤ (gradPixel colors pos).2.1 ∧ (gradPixel colors pos).2.1 ≤ 255 ∧
    0 ≤ (gradPixel colors pos).2.2 ∧ (gradPixel colors pos).2.2 ≤ 255 := by
  have hnq : (2 : ℚ) ≤ (colors.length : ℚ) := by exact_mod_cast hc
  have hd : (0 : ℚ) < (colors.length : ℚ) - 1 := by linarith
  have hss : 0 < 1 / ((colors.length : ℚ) - 1) := div_pos one_pos hd
  dsimp only [gradPixel]
  set q : ℚ := pos / (1 / ((colors.length : ℚ) - 1)) with hq_def
  have hq0 : 0 ≤ q := div_nonneg hp0 hss.le
  have hqval : q = pos * ((colors.length : ℚ) - 1) := by
    rw [hq_def, one_div, div_eq_mul_inv, inv_inv]
  have hqle : q ≤ (colors.length : ℚ) - 1 := by
    rw [hqval]
    nlinarith
  rw [pyint_of_nonneg _ hq0]
  have hf0 : 0 ≤ Int.floor q := Int.le_floor.mpr (by exact_mod_cast hq0)
  have h2i : (2 : Int) ≤ (colors.length : Int) := by exact_mod_cast hc
  set seg : Int := min (Int.floor q) ((colors.length : Int) - 2) with hseg_def
  have hseg0 : 0 ≤ seg := le_min hf0 (by omega)
  have hsegle : seg ≤ (colors.length : Int) - 2 := min_le_right _ _
  have hi1 : seg.toNat < colors.length := by omega
  have hi2 : (seg + 1).toNat < colors.length := by omega
  have hm1 : colors.getD seg.toNat (0, 0, 0) ∈ colors := by
    rw [List.getD_eq_getElem _ _ hi1]
    exact List.getElem_mem _
  have hm2 : colors.getD (seg + 1).toNat (0, 0, 0) ∈ colors := by
    rw [List.getD_eq_getElem _ _ hi2]
    exact List.getElem_mem _
  obtain ⟨hb11, hb12, hb13, hb14, hb15, hb16⟩ := hb _ hm1
  obtain ⟨hb21, hb22, hb23, hb24, hb25, hb26⟩ := hb _ hm2
  set lp : ℚ := (pos - (seg : ℚ) * (1 / ((colors.length : ℚ) - 1))) /
    (1 / ((colors.length : ℚ) - 1)) with hlp_def
  have hlpval : lp = q - (seg : ℚ) := by
    rw [hlp_def, hq_def, sub_div, mul_div_assoc, div_self hss.ne', mul_one]
  have hsegf : seg ≤ Int.floor q := min_le_left _ _
  have hsegq : (seg : ℚ) ≤ q := by
    calc (seg : ℚ) ≤ ((Int.floor q : Int) : ℚ) := by exact_mod_cast hsegf
      _ ≤ q := Int.floor_le q
  have hlp0 : 0 ≤ lp := by
    rw [hlpval]
    linarith
  have hlp1 : lp ≤ 1 := by
    rw [hlpval]
    rcases le_or_lt (Int.floor q) ((colors.length : Int) - 2) with hmin | hmin
    · have hseg_eq : seg = Int.floor q := min_eq_left hmin
      have := Int.lt_floor_add_one q
      rw [hseg_eq]
      linarith
    · have hseg_eq : seg = (colors.length : Int) - 2 := min_eq_right hmin.le
      rw [hseg_eq]
      push_cast
      linarith
  refine ⟨?_, ?_, ?_, ?_, ?_, ?_⟩
  · exact (interpChannel_bounds _ _ _ hb11 hb12 hb21 hb22 hlp0 hlp1).1
  · exact (interpChannel_bounds _ _ _ hb11 hb12 hb21 hb22 hlp0 hlp1).2
  · exact (interpChannel_bounds _ _ _ hb13 hb14 hb23 hb24 hlp0 hlp1).1
  · exact (interpChannel_bounds _ _ _ hb13 hb14 hb23 hb24 hlp0 hlp1).2
  · exact (interpChannel_bounds _ _ _ hb15 hb16 hb25 hb26 hlp0 hlp1).1
  · exact (interpChannel_bounds _ _ _ hb15 hb16 hb25 hb26 hlp0 hlp1).2

/-- Claim C10: with a nonempty palette whose channels all lie in [0, 255],
every pixel produced by create_gradient has all three channels in
[0, 255]. -/
theorem C10_pixels_in_range (colors : List Color) (w h : Nat) (v : Bool)
    (hne : colors ≠ [])
    (hb : ∀ c ∈ colors, 0 ≤ c.1 ∧ c.1 ≤ 255 ∧ 0 ≤ c.2.1 ∧ c.2.1 ≤ 255 ∧
      0 ≤ c.2.2 ∧ c.2.2 ≤ 255)
    (hw : 1 ≤ w) (hh : 1 ≤ h) :
    ∀ p ∈ create_gradient colors w h v,
      0 ≤ p.1 ∧ p.1 ≤ 255 ∧ 0 ≤ p.2.1 ∧ p.2.1 ≤ 255 ∧ 0 ≤ p.2.2 ∧ p.2.2 ≤ 255 := by
  intro p hp
  have hlen : 0 < colors.length := List.length_pos.mpr hne
  unfold create_gradient at hp
  by_cases h1 : colors.length = 1
  · rw [if_pos h1] at hp
    have hpc := List.eq_of_mem_replicate hp
    have hmem : colors.getD 0 (0, 0, 0) ∈ colors := by
      rw [List.getD_eq_getElem _ _ hlen]
      exact List.getElem_mem _
    rw [hpc]
    exact hb _ hmem
  · rw [if_neg h1] at hp
    rw [List.mem_flatMap] at hp
    obtain ⟨y, hy, hp2⟩ := hp
    rw [List.mem_map] at hp2
    obtain ⟨x, hx, hpx⟩ := hp2
    have hxw : x < w := List.mem_range.mp hx
    have hyh : y < h := List.mem_range.mp hy
    have hc2 : 2 ≤ colors.length := by omega
    rw [← hpx]
    exact gradPixel_bounds colors _ hc2 hb (gradPos_nonneg w h v x y)
      (gradPos_le_one w h v x y hxw hyh)

/-- Witness for C10: the black-to-white palette on a 2 by 2 vertical
gradient, whose bottom-row pixel is (255, 255, 255). -/
theorem C10_pixels_in_range_witness :
    0 ≤ (((255 : Int), 255, 255) : Color).1 ∧ (((255 : Int), 255, 255) : Color).1 ≤ 255 ∧
    0 ≤ (((255 : Int), 255, 255) : Color).2.1 ∧ (((255 : Int), 255, 255) : Color).2.1 ≤ 255 ∧
    0 ≤ (((255 : Int), 255, 255) : Color).2.2 ∧ (((255 : Int), 255, 255) : Color).2.2 ≤ 255 :=
  C10_pixels_in_range [((0 : Int), 0, 0), ((255 : Int), 255, 255)] 2 2 true
    (by decide) (by decide) (by decide) (by decide) ((255 : Int), 255, 255)
    (by
      have hev : create_gradient [((0 : Int), 0, 0), ((255 : Int), 255, 255)] 2 2 true =
          [((0 : Int), 0, 0), ((0 : Int), 0, 0),
           ((255 : Int), 255, 255), ((255 : Int), 255, 255)] := by
        simp [create_gradient, gradPixel, gradPos, interpChannel, pyint, List.range_succ]
        norm_num
      rw [hev]
      simp)

end Atlas
